import Mathlib

/-!
Shallow embedding of the SUME Smart Summarizer core (cache layer, chunker,
validation gate, transform pipeline, media acquisition) together with proofs
about the embedded definitions.

Conventions used throughout:
* Python strings are `String` (a `List Char` under the hood); `len` is
  `String.length` (code-point count, matching CPython).
* `time.time()` is modelled as an explicit natural-number clock `now` that is
  fixed for the duration of one call into the module.
* Python dictionaries are association lists in insertion order with unique
  keys, matching CPython dict semantics.
* Fallible collaborators (the Gemini model, the network, whisper) are
  parameters ("oracles") supplied to the embedded functions.
-/

namespace SUME

/-- The warning sentinel that marks error results throughout the code base
(the two code points of "⚠️"). -/
def warnMark : String := "⚠️"

/-- Python `s.startswith("⚠️")`, used by the pipeline to recognise
warning-marked error strings. -/
def isWarning (s : String) : Bool := warnMark.data.isPrefixOf s.data

/-- Characters stripped by Python `str.strip()` / split on by `str.split()`,
modelled by `Char.isWhitespace`. -/
def isWs (c : Char) : Bool := c.isWhitespace

/-- Python `str.strip()` on the underlying character list: drop whitespace
from both ends. -/
def stripChars (l : List Char) : List Char :=
  ((l.dropWhile isWs).reverse.dropWhile isWs).reverse

/-- Python `str.strip()`. -/
def pyStrip (s : String) : String := String.mk (stripChars s.data)

/-- Python `str.lower()` on one word, modelled character-wise
(`Char.toLower`); agrees with CPython on ASCII input. -/
def pyLower (w : List Char) : List Char := w.map Char.toLower

/-- Helper for `wordsBy`: scan the characters keeping the (reversed) current
word in `acc`; a separator flushes the accumulated word, the end of the input
flushes the last one.  Structurally recursive so that terms evaluate. -/
def wordsByAux (p : Char → Bool) : List Char → List Char → List (List Char)
  | [], acc => if acc = [] then [] else [acc.reverse]
  | c :: cs, acc =>
    if p c then
      (if acc = [] then wordsByAux p cs [] else acc.reverse :: wordsByAux p cs [])
    else wordsByAux p cs (c :: acc)

/-- Python `str.split()` with no separator argument, on the underlying
character list: split on runs of characters satisfying `p`, producing no
empty words (`file_reader.chunk_text` line `words = text.split()`). -/
def wordsBy (p : Char → Bool) (l : List Char) : List (List Char) :=
  wordsByAux p l []

/-- The word sequence of a Python string under `text.split()`. -/
def wordsOf (s : String) : List (List Char) := wordsBy isWs s.data

/-- Helper for `chunksOf`: the recursion is driven by a fuel argument (any
bound on the list length) so that it is structurally recursive and terms
evaluate. -/
def chunksOfFuel (n : Nat) : Nat → List (List Char) → List (List (List Char))
  | 0, _ => []
  | fuel + 1, l =>
    if l.isEmpty || n == 0 then [] else l.take n :: chunksOfFuel n fuel (l.drop n)

/-- The slicing loop `for i in range(0, len(words), max_words): words[i:i+max_words]`
of `file_reader.chunk_text`: successive groups of `n` elements.  (For `n = 0`
CPython's `range` raises `ValueError`; the claims only concern `n > 0`, and the
model returns `[]` there.) -/
def chunksOf (n : Nat) (l : List (List Char)) : List (List (List Char)) :=
  chunksOfFuel n l.length l

/-- Python `" ".join(ws)` at the character-list level. -/
def joinSep (sep : List Char) : List (List Char) → List Char
  | [] => []
  | [w] => w
  | w :: ws => w ++ sep ++ joinSep sep ws

/-- `file_reader.chunk_text(text, max_words)`: split the text into words and
re-join successive groups of `max_words` words with single spaces.  The Python
generator is modelled as the (finite) list of the strings it yields. -/
def chunk_text (text : String) (max_words : Nat) : List String :=
  (chunksOf max_words (wordsOf text)).map (fun g => String.mk (joinSep [' '] g))

/-! ## Cache layer (`backend/cache_manager.py`) -/

/-- Module constant `CACHE_MAX_SIZE = 1000`. -/
def CACHE_MAX_SIZE : Nat := 1000

/-- Module constant `CACHE_TTL = 3600`. -/
def CACHE_TTL : Nat := 3600

/-- `cache_manager.CacheItem`: cached data plus the creation timestamp
(`time.time()` at construction) and its TTL. -/
structure CacheItem (α : Type) where
  data : α
  timestamp : Nat
  ttl : Nat
deriving DecidableEq, Repr

/-- `CacheItem.is_expired(self)`: `time.time() - self.timestamp > self.ttl`,
with the clock passed explicitly. -/
def CacheItem.is_expired (it : CacheItem α) (now : Nat) : Bool :=
  decide (now - it.timestamp > it.ttl)

/-- `CacheItem.get_data(self)`: the data if not expired, otherwise `None`. -/
def CacheItem.get_data (it : CacheItem α) (now : Nat) : Option α :=
  if it.is_expired now then none else some it.data

/-- The module-level `cache` dictionary: an insertion-ordered association
list with unique keys (CPython dict semantics). -/
abbrev Cache (α : Type) : Type := List (String × CacheItem α)

/-- Dictionary lookup `cache[key]` / `key in cache`. -/
def Cache.find? (c : Cache α) (key : String) : Option (CacheItem α) :=
  (List.find? (fun e => e.1 == key) c).map (fun e => e.2)

/-- Dictionary assignment `cache[key] = item`: replace in place if the key is
present (keeping its position), otherwise append. -/
def Cache.insert (c : Cache α) (key : String) (it : CacheItem α) : Cache α :=
  if (List.any c (fun e => e.1 == key)) then
    List.map (fun e => if e.1 == key then (key, it) else e) c
  else c ++ [(key, it)]

/-- `cache_manager._cleanup_expired()`: delete every expired entry, keeping
the rest in order. -/
def cleanup_expired (now : Nat) (c : Cache α) : Cache α :=
  List.filter (fun e => ! e.2.is_expired now) c

/-- `cache_manager._enforce_size_limit()`: when the dict holds more than
`maxSize` entries, stably sort the entries by timestamp and delete the keys of
the oldest `len(cache) - maxSize` of them.  The Python code reads the module
constant `CACHE_MAX_SIZE`; it is passed here as the `maxSize` parameter and
instantiated with `CACHE_MAX_SIZE` at the use site. -/
def enforce_size_limit (maxSize : Nat) (c : Cache α) : Cache α :=
  if c.length > maxSize then
    let sorted := List.mergeSort c (fun a b => decide (a.2.timestamp ≤ b.2.timestamp))
    let doomedKeys := (sorted.take (c.length - maxSize)).map (fun e => e.1)
    List.filter (fun e => ! doomedKeys.contains e.1) c
  else c

/-- The inner `wrapper` of `cache_result`'s `decorator`, executed with a
function object that is actually callable: `compute` stands for
`func(*args, **kwargs)`, `key` for `_create_cache_key(func.__name__, args,
kwargs)` (a deterministic function of the name and arguments), `ttl` for the
decorator parameter and `now` for the clock during this call.  Returns the
value handed back to the caller, the cache after the call, and whether
`compute` was invoked. -/
def wrapper_call (compute : Unit → α) (key : String) (ttl : Nat) (now : Nat)
    (c : Cache α) : α × Cache α × Bool :=
  let c1 := cleanup_expired now c
  match c1.find? key with
  | some it =>
    if ! it.is_expired now then
      (it.data, c1, false)
    else
      let r := compute ()
      (r, enforce_size_limit CACHE_MAX_SIZE (c1.insert key ⟨r, now, ttl⟩), true)
  | none =>
      let r := compute ()
      (r, enforce_size_limit CACHE_MAX_SIZE (c1.insert key ⟨r, now, ttl⟩), true)

/-- `cache_manager.get_cache_stats()`, split into the numbers it reports:
first `_cleanup_expired()`, then `total_items = len(cache)`,
`expired_items = sum(1 for item in cache.values() if item.is_expired())`,
`active_items = total_items - expired_items` and
`memory_estimate = sum(len(str(item.data)) for item in cache.values())`
(for string data `str` is the identity).  Returns
(active, expired, memory estimate) together with the cleaned cache. -/
def get_cache_stats_counts (now : Nat) (c : Cache String) :
    (Nat × Nat × Nat) × Cache String :=
  let c1 := cleanup_expired now c
  let total := c1.length
  let expired := (List.filter (fun e => e.2.is_expired now) c1).length
  let active := total - expired
  let memory := (List.map (fun e => e.2.data.length) c1).sum
  ((active, expired, memory), c1)

/-! ## Validation gate (`backend/validation.py`) -/

/-- Module constant `MAX_TEXT_LENGTH = 1000000`. -/
def MAX_TEXT_LENGTH : Nat := 1000000

/-- Module constant `MAX_URL_LENGTH = 2048`. -/
def MAX_URL_LENGTH : Nat := 2048

/-- Helper for `collapseWs`: the flag records whether the previous character
belonged to a whitespace run (in which case further whitespace is absorbed). -/
def collapseWsAux : Bool → List Char → List Char
  | _, [] => []
  | prevWs, c :: cs =>
    if isWs c then
      (if prevWs then collapseWsAux true cs else ' ' :: collapseWsAux true cs)
    else c :: collapseWsAux false cs

/-- `re.sub(r"\s+", " ", l)`: collapse every (maximal) run of whitespace
characters into a single space. -/
def collapseWs (l : List Char) : List Char := collapseWsAux false l

/-- `len(set(word.lower() for word in words))`: the number of distinct
lower-cased words. -/
def uniqueLowerCount (words : List (List Char)) : Nat :=
  ((words.map pyLower).dedup).length

/-- `validation.validate_text_input(text)`.  Notes on the embedding: the
`isinstance` test is vacuous for a `String`; `not text` is the empty-string
test; the float comparison `unique_words / len(words) < 0.3` is modelled by
the exact rational comparison `10 * unique < 3 * len(words)`, which agrees
with the CPython double comparison for every word count reachable under the
`MAX_TEXT_LENGTH` bound enforced two lines earlier. -/
def validate_text_input (text : String) : Bool × String :=
  if text = "" then
    (false, "⚠️ Text input is required and must be a string.")
  else if (pyStrip text).length < 10 then
    (false, "⚠️ Text must be at least 10 characters long.")
  else if text.length > MAX_TEXT_LENGTH then
    (false, "⚠️ Text is too long. Maximum 1,000,000 characters allowed.")
  else
    let cleaned := collapseWs (stripChars text.data)
    if cleaned.length < 10 then
      (false, "⚠️ Text must contain meaningful content.")
    else
      let words := wordsBy isWs cleaned
      if words.length > 10 ∧ 10 * uniqueLowerCount words < 3 * words.length then
        (false, "⚠️ Text appears to have excessive repetition.")
      else
        (true, "Valid text input.")

/-- ASCII letter test used by CPython's URL scheme recognition. -/
def isAsciiLetter (c : Char) : Bool :=
  ('a' ≤ c && c ≤ 'z') || ('A' ≤ c && c ≤ 'Z')

/-- Membership in CPython's `scheme_chars` (ASCII letters, digits, `+`, `-`,
`.`). -/
def isSchemeChar (c : Char) : Bool :=
  isAsciiLetter c || c.isDigit || c == '+' || c == '-' || c == '.'

/-- Modelled from CPython `urllib.parse.urlsplit`: the URL has a scheme when
some `:` occurs at a position `i > 0`, the first character is an ASCII
letter and every character before the `:` is a scheme character; the result
is the part after the `:` (the scheme itself is irrelevant to `netloc`).
Control-character stripping (a CPython hardening step that does not affect
the URLs the claims are about) is not modelled. -/
def afterScheme (url : List Char) : Option (List Char) :=
  let pre := url.takeWhile (fun c => c != ':')
  if pre.length < url.length ∧ pre ≠ [] ∧
      isAsciiLetter (pre.headD ' ') ∧ pre.all isSchemeChar then
    some (url.drop (pre.length + 1))
  else none

/-- Modelled from CPython `urllib.parse.urlsplit`: the network location is the
segment after a leading `//` of the post-scheme part, up to the first `/`,
`?` or `#`; it is empty when the post-scheme part does not start with `//`. -/
def netlocOf (url : List Char) : List Char :=
  let rest := (afterScheme url).getD url
  match rest with
  | '/' :: '/' :: r => r.takeWhile (fun c => c != '/' && c != '?' && c != '#')
  | _ => []

/-- The network location of a URL after the default-scheme normalization of
`validate_url`: if `urlparse(url)` found no scheme the URL is re-parsed with
`"http://"` prepended. -/
def netlocAfterNorm (url : String) : List Char :=
  match afterScheme url.data with
  | some _ => netlocOf url.data
  | none => netlocOf ("http://" ++ url).data

/-- The normalized URL whose lower-cased text is scanned for suspicious
patterns by `validate_url`. -/
def normalizedUrl (url : String) : String :=
  match afterScheme url.data with
  | some _ => url
  | none => "http://" ++ url

/-- Python `needle in haystack` on strings (contiguous substring test). -/
def containsSub (needle hay : List Char) : Bool :=
  match hay with
  | [] => needle.isPrefixOf []
  | _ :: t => needle.isPrefixOf hay || containsSub needle t

/-- `validation.validate_url(url)`.  The `urlparse` calls are modelled by
`afterScheme` / `netlocOf` above; the branch raising `ValueError` inside
`urlparse` (malformed IPv6 brackets) is not modelled, as no claim concerns
it. -/
def validate_url (url : String) : Bool × String :=
  if url = "" then
    (false, "⚠️ URL is required and must be a string.")
  else if url.length > MAX_URL_LENGTH then
    (false, "⚠️ URL is too long. Maximum 2048 characters allowed.")
  else if netlocAfterNorm url = [] then
    (false, "⚠️ Invalid URL format.")
  else if containsSub "javascript:".data (pyLower (normalizedUrl url).data)
      || containsSub "data:".data (pyLower (normalizedUrl url).data)
      || containsSub "file:".data (pyLower (normalizedUrl url).data) then
    (false, "⚠️ URL contains potentially unsafe content.")
  else
    (true, "Valid URL input.")

/-- `validation.validate_custom_prompt(prompt)`.  The second
"meaningful content" test in the source repeats the first length test
verbatim and is therefore unreachable; it is kept here for fidelity. -/
def validate_custom_prompt (prompt : String) : Bool × String :=
  if prompt = "" then
    (false, "⚠️ Custom prompt is required and must be a string.")
  else if (pyStrip prompt).length < 5 then
    (false, "⚠️ Custom prompt must be at least 5 characters long.")
  else if prompt.length > 500 then
    (false, "⚠️ Custom prompt is too long. Maximum 500 characters allowed.")
  else if (pyStrip prompt).length < 5 then
    (false, "⚠️ Custom prompt must contain meaningful content.")
  else
    (true, "Valid custom prompt.")

/-- `app.validate_and_summarize_text(text)`, with the downstream call
`summarize_text(text)` abstracted as `summarizeFn` (the progress-bar calls
are UI-only and omitted).  `Sum.inl` carries the validation error message
returned before any other work; `Sum.inr` the value of the summarize call. -/
def validate_and_summarize_text (summarizeFn : String → α) (text : String) :
    String ⊕ α :=
  let v := validate_text_input text
  if v.1 then Sum.inr (summarizeFn text) else Sum.inl v.2

/-! ## The `@cache_result` decoration as written (`backend/ai_services.py`)

`cache_result` is a decorator *factory*: `def cache_result(ttl=CACHE_TTL)`
returns `decorator`, and `decorator(func)` returns `wrapper`.  Every use in
`ai_services.py` and `web_scraper.py` applies it bare (`@cache_result`, no
parentheses), so the factory is applied directly to the function being
decorated: `ttl` is bound to that function object and the module name is
re-bound to `decorator` itself.  The values that can arise are finitely many
closures, modelled by the defunctionalized type `PyVal` below. -/

/-- The four generative-transform functions of `ai_services.py` that carry a
bare `@cache_result`. -/
inductive FuncId where
  | summarize
  | extend
  | extendCustom
  | translate
deriving DecidableEq, Repr

/-- Defunctionalized Python runtime values for the decorator fragment:
a string, an undecorated function object, the `decorator` closure (capturing
`cache_result`'s `ttl` argument) or the `wrapper` closure (capturing `ttl`
and `decorator`'s `func` argument). -/
inductive PyVal where
  | pystr (s : String)
  | funcObj (id : FuncId)
  | decoratorClosure (ttl : PyVal)
  | wrapperClosure (ttl : PyVal) (func : PyVal)
deriving DecidableEq, Repr

/-- State visible to the decorator machinery: the module-level cache and the
number of `model.generate_content` invocations so far. -/
structure PyEnv where
  cache : Cache String
  modelCalls : Nat
deriving DecidableEq, Repr

/-- `cache_manager.cache_result(ttl)`: define `decorator` and return it. -/
def cache_result (ttl : PyVal) : PyVal := PyVal.decoratorClosure ttl

/-- The module-level binding produced by `@cache_result def summarize_text`:
`cache_result` applied to the undecorated function object. -/
def summarize_text_module : PyVal := cache_result (PyVal.funcObj FuncId.summarize)

/-- The module-level binding produced by `@cache_result def extend_summary`. -/
def extend_summary_module : PyVal := cache_result (PyVal.funcObj FuncId.extend)

/-- The module-level binding produced by
`@cache_result def extend_summary_custom`. -/
def extend_summary_custom_module : PyVal :=
  cache_result (PyVal.funcObj FuncId.extendCustom)

/-- The module-level binding produced by `@cache_result def translate_text`. -/
def translate_text_module : PyVal := cache_result (PyVal.funcObj FuncId.translate)

/-- The module-level binding for `FuncId id`. -/
def module_binding : FuncId → PyVal
  | FuncId.summarize => summarize_text_module
  | FuncId.extend => extend_summary_module
  | FuncId.extendCustom => extend_summary_custom_module
  | FuncId.translate => translate_text_module

/-- One Python call `callee(arg)` for the values of this fragment.
* Calling `decorator` executes `functools.wraps(func)` (attribute copying
  that succeeds also for a string `func`) and returns the `wrapper` closure:
  no cache access and no model call happens.
* Calling a `wrapper` whose captured `func` is a string evaluates
  `func.__name__` inside `_create_cache_key`, which raises `AttributeError`
  (`none`); the application never reaches this case.
* Other calls (a string is not callable; calling an undecorated body would
  run the real function) are outside the fragment and also return `none`. -/
def pyCall1 (callee : PyVal) (arg : PyVal) (env : PyEnv) :
    Option (PyVal × PyEnv) :=
  match callee with
  | PyVal.decoratorClosure ttl => some (PyVal.wrapperClosure ttl arg, env)
  | _ => none

/-! ## Undecorated transform bodies (`backend/ai_services.py`)

The bodies of `summarize_text`, `extend_summary`, `extend_summary_custom`
and `translate_text` as they read between `def` and the decorator's effect.
The Gemini call is an oracle `gen : String → GenResult`. -/

/-- Outcome of one `model.generate_content(prompt)` call:
`response t` is a truthy response object whose `.text` is `t` (possibly
empty — Python treats an empty `.text` as falsy), `exn e` an exception with
message `e`. -/
inductive GenResult where
  | response (text : String)
  | exn (msg : String)
deriving DecidableEq, Repr

/-- The body of `summarize_text(input_text)`: one `generate_content` call on
the fixed template; the stripped response text if truthy, the fixed warning
if falsy, the formatted warning if the call raised. -/
def summarize_text_body (gen : String → GenResult) (input_text : String) : String :=
  match gen ("Summarize the following text:\n\n" ++ input_text) with
  | GenResult.response t => if t = "" then "⚠️ Summarization failed." else pyStrip t
  | GenResult.exn e => "⚠️ Summarization error: " ++ e

/-- The body of `extend_summary(summary_text)`. -/
def extend_summary_body (gen : String → GenResult) (summary_text : String) : String :=
  match gen ("Expand the following summary into more details:\n\n" ++ summary_text) with
  | GenResult.response t => if t = "" then "⚠️ Could not extend summary." else pyStrip t
  | GenResult.exn e => "⚠️ Extend summary error: " ++ e

/-- The body of `extend_summary_custom(summary_text, custom_prompt)`. -/
def extend_summary_custom_body (gen : String → GenResult)
    (summary_text custom_prompt : String) : String :=
  match gen ("Expand the following summary with specific focus on: " ++
      custom_prompt ++ "\n\nSummary:\n" ++ summary_text) with
  | GenResult.response t =>
    if t = "" then "⚠️ Could not extend summary with custom details." else pyStrip t
  | GenResult.exn e => "⚠️ Custom extend summary error: " ++ e

/-- The body of `translate_text(summary_text, target_lang)`. -/
def translate_text_body (gen : String → GenResult)
    (summary_text target_lang : String) : String :=
  match gen ("Translate the following text into " ++ target_lang ++ ":\n\n" ++
      summary_text) with
  | GenResult.response t => if t = "" then "⚠️ Translation failed." else pyStrip t
  | GenResult.exn e => "⚠️ Translation error: " ++ e

/-- `ai_services.summarize_file(file_path)` (not decorated), with
`extract_text_from_file` abstracted as `extract` and the model call as
`gen : String → Option String` (`none` models a falsy response object,
`some t` a response with `.text = t`; exceptions of this undecorated loop
would propagate and are not modelled).  Chunks come from
`chunk_text(text)` with its default `max_words=1000`; a chunk's summary is
kept only when the response and its text are truthy; if no summary was
collected the fixed warning is returned, otherwise the summaries joined by
blank lines. -/
def summarize_file_flow (extract : String → String)
    (gen : String → Option String) (file_path : String) : String :=
  let text := extract file_path
  if isWarning text then text
  else
    let summaries := (chunk_text text 1000).filterMap (fun ch =>
      match gen ("Summarize the following text:\n\n" ++ ch) with
      | none => none
      | some t => if t = "" then none else some (pyStrip t))
    if summaries.length = 0 then "⚠️ Summarization failed."
    else String.intercalate "\n\n" summaries

/-! ## Media acquisition and temporary resources (`backend/media_processor.py`)

The filesystem is modelled as the list of live temporary paths plus a
counter from which `tempfile` draws fresh names.  The module-level tracking
set `_temp_dirs` of `media_processor.py` is also carried: the source
registers an `atexit` handler over it but never adds any path to it. -/

/-- Filesystem and lifecycle state: live temporary paths, the fresh-name
counter, and the `_temp_dirs` tracking set. -/
structure FSState where
  live : List String
  counter : Nat
  tempDirsSet : List String
deriving DecidableEq, Repr

/-- `tempfile.mkdtemp()`: create a fresh directory. -/
def mkdtemp (fs : FSState) : String × FSState :=
  let name := "tmp" ++ toString fs.counter
  (name, { fs with live := fs.live ++ [name], counter := fs.counter + 1 })

/-- Creating a file at an explicit path (`open(path, "wb")` / a download
writing into the temp directory). -/
def createPath (p : String) (fs : FSState) : FSState :=
  { fs with live := fs.live ++ [p] }

/-- `os.remove(p)` (ignoring a missing file, as the callers guard with
`os.path.exists`). -/
def removePath (p : String) (fs : FSState) : FSState :=
  { fs with live := fs.live.filter (fun q => q != p) }

/-- `os.path.exists(p)`. -/
def pathExists (p : String) (fs : FSState) : Bool := fs.live.contains p

/-- `shutil.rmtree(dir, ignore_errors=True)`: remove the directory and
everything under it. -/
def rmtree (dir : String) (fs : FSState) : FSState :=
  { fs with
    live := fs.live.filter (fun q => q != dir && ! (dir ++ "/").data.isPrefixOf q.data) }

/-- `os.path.dirname(p)`: everything before the last `/` (empty when there
is no `/`). -/
def dirnameOf (p : String) : String :=
  String.mk (((p.data.reverse.dropWhile (fun c => c != '/')).drop 1).reverse)

/-- What the outside world does when `download_audio_from_media_url` runs:
the yt-dlp branch leaves a matching audio file (`ytFound`) or none
(`ytNone`); the direct branch answers the streaming GET with a status code
(`httpOk`/`httpErr`); or some step raises (`raised`).  `raised` is modelled
as occurring after the `mkdtemp` (e.g. `requests.get` timing out). -/
inductive DownloadOutcome where
  | ytFound (name : String)
  | ytNone
  | httpOk (ext : String)
  | httpErr (code : Nat)
  | raised (msg : String)
deriving DecidableEq, Repr

/-- `media_processor.download_audio_from_media_url(url)`: a temp directory is
created first; on the yt-dlp branch the first matching download is returned,
on the direct branch the streamed file; every failure is converted to a
warning string — and no branch removes the directory. -/
def download_audio_from_media_url (outcome : DownloadOutcome) (fs : FSState) :
    String × FSState :=
  let (temp_dir, fs1) := mkdtemp fs
  match outcome with
  | DownloadOutcome.ytFound name =>
    let p := temp_dir ++ "/" ++ name
    (p, createPath p fs1)
  | DownloadOutcome.ytNone => ("⚠️ No audio file found after download", fs1)
  | DownloadOutcome.httpOk ext =>
    let p := temp_dir ++ "/audio" ++ ext
    (p, createPath p fs1)
  | DownloadOutcome.httpErr code =>
    ("⚠️ Could not download media file, HTTP " ++ toString code, fs1)
  | DownloadOutcome.raised msg => ("⚠️ Audio download error: " ++ msg, fs1)

/-- What speech recognition does for one file: validation rejected the file
(`invalid` with the warning message), or transcription produced text
(`transcribed`, possibly all-whitespace), or an internal step raised and was
caught (`failed`). -/
inductive SttOutcome where
  | invalid (msg : String)
  | transcribed (text : String)
  | failed (msg : String)
deriving DecidableEq, Repr

/-- `media_processor.speech_to_text(file_path)`, tracking only its
filesystem effect: on the transcription path `prepare_audio_for_whisper`
creates a context-managed wav (removed on scope exit) and a final copy,
which the `finally` block removes again — the net filesystem effect is
creation followed by removal of the temporaries, and the function never
raises past its boundary. -/
def speech_to_text_fs (outcome : SttOutcome) (fs : FSState) : String × FSState :=
  match outcome with
  | SttOutcome.invalid msg => (msg, fs)
  | SttOutcome.transcribed t =>
    let name := "tmp" ++ toString fs.counter
    let fs1 := createPath name { fs with counter := fs.counter + 1 }
    let fs2 := removePath name fs1
    (if pyStrip t = "" then
      "⚠️ Could not recognize speech. The audio might be too quiet or unclear."
     else pyStrip t, fs2)
  | SttOutcome.failed msg => ("⚠️ Speech-to-text failed: " ++ msg, fs)

/-- `media_processor.transcribe_media_url(url)`: download, return the warning
immediately if the download failed, return a warning if the reported file is
missing, and otherwise transcribe under a `try/finally` whose `finally`
removes the directory containing the file.  Note that the two early returns
happen before the `try`, so the `finally` does not run for them. -/
def transcribe_media_url (dl : DownloadOutcome) (stt : SttOutcome)
    (fs : FSState) : String × FSState :=
  let (file_path, fs1) := download_audio_from_media_url dl fs
  if isWarning file_path then (file_path, fs1)
  else if ! pathExists file_path fs1 then
    ("⚠️ Downloaded file not found: " ++ file_path, fs1)
  else
    let (transcript, fs2) := speech_to_text_fs stt fs1
    (transcript, rmtree (dirnameOf file_path) fs2)

/-- A two-argument call `callee(a, b)` for the values of this fragment:
`decorator` takes exactly one positional argument, so the two-argument
application-level calls `extend_summary_custom(s, p)` and
`translate_text(s, lang)` raise `TypeError` immediately (modelled as
`none`); no other two-argument callee arises in the fragment. -/
def pyCall2 (_callee _a _b : PyVal) (_env : PyEnv) : Option (PyVal × PyEnv) :=
  none

/-! ## Concrete example inputs used to instantiate the theorems -/

/-- The empty filesystem/lifecycle state. -/
def fs0 : FSState := ⟨[], 0, []⟩

/-- The empty decorator environment (empty cache, no model calls). -/
def env0 : PyEnv := ⟨[], 0⟩

/-- A concrete warning-marked pipeline value (the summarizer's own failure
message). -/
def warnInputEx : String := "⚠️ Summarization failed."

/-- A model oracle answering every prompt with the fixed text
"Expanded details.". -/
def genConst : String → GenResult := fun _ => GenResult.response "Expanded details."

/-- An extractor stand-in whose result is a warning-marked error. -/
def extractWarnEx : String → String := fun _ => "⚠️ Unsupported file type: .xyz"

/-- A model oracle whose response object is falsy. -/
def genNoneEx : String → Option String := fun _ => none

/-- A concrete compute function for instantiating the cache theorems. -/
def computeFresh : Unit → String := fun _ => "fresh"

/-- A concrete one-entry cache whose entry was created at time 0 with TTL 10. -/
def cacheExpiredEx : Cache String := [("k", ⟨"old", 0, 10⟩)]

/-- A concrete repetitive text: 12 words, 1 distinct word. -/
def repetitiveTextEx : String := "aa aa aa aa aa aa aa aa aa aa aa aa"

/-- A 2049-character URL. -/
def longUrlEx : String := String.mk (List.replicate 2049 'a')

/-- A 501-character custom prompt. -/
def longPromptEx : String := String.mk (List.replicate 501 'b')

/-- A concrete summarize stand-in for instantiating the pipeline theorems. -/
def idString : String → String := fun s => s

/-- A concrete three-entry cache over bound 2. -/
def cacheOverEx : Cache String :=
  [("a", ⟨"x", 0, 100⟩), ("b", ⟨"y", 1, 100⟩), ("c", ⟨"z", 2, 100⟩)]

/-! ## Helper lemmas -/

/-- Entries surviving `_cleanup_expired` are exactly the unexpired entries of
the original cache, in order. -/
theorem mem_cleanup_expired {α : Type} (now : Nat) (c : Cache α)
    (e : String × CacheItem α) :
    e ∈ cleanup_expired now c ↔ e ∈ c ∧ e.2.is_expired now = false := by
  simp [cleanup_expired, List.mem_filter]

/-- No entry of a cleaned cache is expired. -/
theorem cleanup_expired_purges {α : Type} (now : Nat) (c : Cache α) :
    ∀ e ∈ cleanup_expired now c, e.2.is_expired now = false := by
  intro e he
  exact ((mem_cleanup_expired now c e).mp he).2

/-! ## C10: cache statistics -/

/-- C10: for every cache state and every time, `get_cache_stats` reports an
expired count of 0 — it purges expired entries first and only then counts
expired items among the survivors — and hence its reported active count
equals the total number of entries remaining after the purge. -/
theorem get_cache_stats_expired_zero (now : Nat) (c : Cache String) :
    (get_cache_stats_counts now c).1.2.1 = 0 ∧
    (get_cache_stats_counts now c).1.1 = (get_cache_stats_counts now c).2.length := by
  have hnil : List.filter (fun e => e.2.is_expired now) (cleanup_expired now c) = [] := by
    rw [List.filter_eq_nil_iff]
    intro e he
    simp [cleanup_expired_purges now c e he]
  constructor
  · simp [get_cache_stats_counts, hnil]
  · simp [get_cache_stats_counts, hnil]

/-! ## C5: TTL expiry -/

/-- C5: an entry whose creation time lies more than its TTL before the
current call is treated as absent: the wrapper's initial lazy sweep purges
every expired entry, the lookup misses, the compute function is invoked
again and its fresh result is returned. -/
theorem wrapper_call_expired_recomputes {α : Type} (compute : Unit → α)
    (key : String) (ttl now : Nat) (c : Cache α) (it : CacheItem α)
    (hnd : (c.map Prod.fst).Nodup)
    (hfind : c.find? key = some it)
    (hexp : it.timestamp + it.ttl < now) :
    (wrapper_call compute key ttl now c).2.2 = true ∧
    (wrapper_call compute key ttl now c).1 = compute () ∧
    (∀ e ∈ cleanup_expired now c, e.2.is_expired now = false) := by
  obtain ⟨e0, hfind0, he0⟩ :
      ∃ e0, List.find? (fun e => e.1 == key) c = some e0 ∧ e0.2 = it := by
    unfold Cache.find? at hfind
    cases h : List.find? (fun e => e.1 == key) c with
    | none => rw [h] at hfind; simp at hfind
    | some e0 => rw [h] at hfind; simp at hfind; exact ⟨e0, rfl, hfind⟩
  have he0mem : e0 ∈ c := List.mem_of_find?_eq_some hfind0
  have he0key : e0.1 = key := by
    have := List.find?_some hfind0
    simpa using this
  have hexp' : it.is_expired now = true := by
    unfold CacheItem.is_expired
    simp only [decide_eq_true_eq]
    omega
  have hmiss : (cleanup_expired now c).find? key = none := by
    unfold Cache.find? cleanup_expired
    rw [Option.map_eq_none', List.find?_eq_none]
    intro e he
    rw [List.mem_filter] at he
    simp only [beq_iff_eq]
    intro hkey
    have heq : e = e0 :=
      List.inj_on_of_nodup_map hnd he.1 he0mem (by rw [hkey, he0key])
    have : e.2.is_expired now = true := by rw [heq, he0]; exact hexp'
    rw [this] at he
    simp at he
  refine ⟨?_, ?_, cleanup_expired_purges now c⟩
  · simp [wrapper_call, hmiss]
  · simp [wrapper_call, hmiss]

/-- Witness for C5: at time 20 the entry of `cacheExpiredEx` (created at 0,
TTL 10) is expired, and the wrapper invokes the compute function again and
returns its fresh result. -/
theorem wrapper_call_expired_recomputes_witness :
    (cacheExpiredEx.map Prod.fst).Nodup ∧
    cacheExpiredEx.find? "k" = some ⟨"old", 0, 10⟩ ∧
    (0 : Nat) + 10 < 20 ∧
    (wrapper_call computeFresh "k" 3600 20 cacheExpiredEx).2.2 = true ∧
    (wrapper_call computeFresh "k" 3600 20 cacheExpiredEx).1 = computeFresh () :=
  ⟨by decide, by decide, by decide,
   (wrapper_call_expired_recomputes computeFresh "k" 3600 20 cacheExpiredEx
      ⟨"old", 0, 10⟩ (by decide) (by decide) (by decide)).1,
   (wrapper_call_expired_recomputes computeFresh "k" 3600 20 cacheExpiredEx
      ⟨"old", 0, 10⟩ (by decide) (by decide) (by decide)).2.1⟩

/-! ## C9 and C8: the validation gate -/

/-- `strip` never lengthens a string. -/
theorem stripChars_length_le (l : List Char) : (stripChars l).length ≤ l.length := by
  unfold stripChars
  rw [List.length_reverse]
  calc ((l.dropWhile isWs).reverse.dropWhile isWs).length
      ≤ (l.dropWhile isWs).reverse.length :=
        List.Sublist.length_le (List.dropWhile_sublist _)
    _ = (l.dropWhile isWs).length := List.length_reverse _
    _ ≤ l.length := List.Sublist.length_le (List.dropWhile_sublist _)

/-- `pyStrip` never lengthens a string. -/
theorem pyStrip_length_le (s : String) : (pyStrip s).length ≤ s.length :=
  stripChars_length_le s.data

/-- C9: a text of more than 10 words whose distinct-lower-cased-word ratio is
below 3/10 is rejected with the excessive-repetition warning, even when it
passes the emptiness check, both length bounds and the meaningful-content
check. -/
theorem validate_text_input_repetition_reject (text : String)
    (h0 : text ≠ "")
    (h1 : 10 ≤ (pyStrip text).length)
    (h2 : text.length ≤ MAX_TEXT_LENGTH)
    (h3 : 10 ≤ (collapseWs (stripChars text.data)).length)
    (h4 : 10 < (wordsBy isWs (collapseWs (stripChars text.data))).length)
    (h5 : 10 * uniqueLowerCount (wordsBy isWs (collapseWs (stripChars text.data)))
        < 3 * (wordsBy isWs (collapseWs (stripChars text.data))).length) :
    validate_text_input text
      = (false, "⚠️ Text appears to have excessive repetition.") := by
  unfold validate_text_input
  rw [if_neg h0, if_neg (by omega), if_neg (by omega)]
  simp only []
  rw [if_neg (by omega), if_pos ⟨h4, h5⟩]

/-- Witness for C9 at `repetitiveTextEx`. -/
theorem validate_text_input_repetition_reject_witness :
    repetitiveTextEx ≠ "" ∧
    10 ≤ (pyStrip repetitiveTextEx).length ∧
    repetitiveTextEx.length ≤ MAX_TEXT_LENGTH ∧
    10 < (wordsBy isWs (collapseWs (stripChars repetitiveTextEx.data))).length ∧
    validate_text_input repetitiveTextEx
      = (false, "⚠️ Text appears to have excessive repetition.") :=
  ⟨by decide, by decide, by decide, by decide,
   validate_text_input_repetition_reject repetitiveTextEx (by decide) (by decide)
     (by decide) (by decide) (by decide) (by decide)⟩

/-- C8: the validation gate rejects exactly at the stated bounds, each
rejection carries the warning sentinel, and rejection happens before the
downstream (I/O-performing) call is made: a text shorter than 10 characters
is rejected by `validate_text_input`; a URL longer than 2048 characters, or
one lacking a network location after default-scheme normalization, is
rejected by `validate_url`; a custom prompt shorter than 5 or longer than
500 characters is rejected by `validate_custom_prompt`; and on any rejected
text `validate_and_summarize_text` returns the validation message without
invoking the summarizer (its result is independent of the summarize
function). -/
theorem validation_rejects_out_of_bounds :
    (∀ text : String, text.length < 10 →
      (validate_text_input text).1 = false ∧
        isWarning (validate_text_input text).2 = true) ∧
    (∀ url : String, MAX_URL_LENGTH < url.length →
      (validate_url url).1 = false ∧ isWarning (validate_url url).2 = true) ∧
    (∀ url : String, netlocAfterNorm url = [] →
      (validate_url url).1 = false ∧ isWarning (validate_url url).2 = true) ∧
    (∀ prompt : String, prompt.length < 5 →
      (validate_custom_prompt prompt).1 = false ∧
        isWarning (validate_custom_prompt prompt).2 = true) ∧
    (∀ prompt : String, 500 < prompt.length →
      (validate_custom_prompt prompt).1 = false ∧
        isWarning (validate_custom_prompt prompt).2 = true) ∧
    (∀ (α : Type) (f : String → α) (text : String),
      (validate_text_input text).1 = false →
      validate_and_summarize_text f text = Sum.inl (validate_text_input text).2) := by
  refine ⟨?_, ?_, ?_, ?_, ?_, ?_⟩
  · intro text h
    unfold validate_text_input
    by_cases h0 : text = ""
    · rw [if_pos h0]
      exact ⟨rfl, by decide⟩
    · rw [if_neg h0, if_pos (by have := pyStrip_length_le text; omega)]
      exact ⟨rfl, by decide⟩
  · intro url h
    have h0 : url ≠ "" := by
      intro h0
      rw [h0] at h
      simp [MAX_URL_LENGTH] at h
    unfold validate_url
    rw [if_neg h0, if_pos (by omega)]
    exact ⟨rfl, by decide⟩
  · intro url h
    unfold validate_url
    by_cases h0 : url = ""
    · rw [if_pos h0]
      exact ⟨rfl, by decide⟩
    · rw [if_neg h0]
      by_cases h1 : url.length > MAX_URL_LENGTH
      · rw [if_pos h1]
        exact ⟨rfl, by decide⟩
      · rw [if_neg h1, if_pos h]
        exact ⟨rfl, by decide⟩
  · intro prompt h
    unfold validate_custom_prompt
    by_cases h0 : prompt = ""
    · rw [if_pos h0]
      exact ⟨rfl, by decide⟩
    · rw [if_neg h0, if_pos (by have := pyStrip_length_le prompt; omega)]
      exact ⟨rfl, by decide⟩
  · intro prompt h
    have h0 : prompt ≠ "" := by
      intro h0
      rw [h0] at h
      simp at h
    unfold validate_custom_prompt
    rw [if_neg h0]
    by_cases h1 : (pyStrip prompt).length < 5
    · rw [if_pos h1]
      exact ⟨rfl, by decide⟩
    · rw [if_neg h1, if_pos (by omega)]
      exact ⟨rfl, by decide⟩
  · intro α f text h
    simp [validate_and_summarize_text, h]

/-- The length of `longUrlEx`. -/
theorem longUrlEx_length : longUrlEx.length = 2049 := by
  show (List.replicate 2049 'a').length = 2049
  rw [List.length_replicate]

/-- The length of `longPromptEx`. -/
theorem longPromptEx_length : longPromptEx.length = 501 := by
  show (List.replicate 501 'b').length = 501
  rw [List.length_replicate]

/-- Witness for C8: each rejection bound instantiated at a concrete
boundary-violating input. -/
theorem validation_rejects_out_of_bounds_witness :
    ((validate_text_input "short").1 = false ∧
      isWarning (validate_text_input "short").2 = true) ∧
    ((validate_url longUrlEx).1 = false ∧
      isWarning (validate_url longUrlEx).2 = true) ∧
    ((validate_url "/nopath").1 = false ∧
      isWarning (validate_url "/nopath").2 = true) ∧
    ((validate_custom_prompt "abc").1 = false ∧
      isWarning (validate_custom_prompt "abc").2 = true) ∧
    ((validate_custom_prompt longPromptEx).1 = false ∧
      isWarning (validate_custom_prompt longPromptEx).2 = true) ∧
    validate_and_summarize_text idString "short"
      = Sum.inl (validate_text_input "short").2 :=
  ⟨validation_rejects_out_of_bounds.1 "short" (by decide),
   validation_rejects_out_of_bounds.2.1 longUrlEx
     (by rw [longUrlEx_length]; decide),
   validation_rejects_out_of_bounds.2.2.1 "/nopath" (by decide),
   validation_rejects_out_of_bounds.2.2.2.1 "abc" (by decide),
   validation_rejects_out_of_bounds.2.2.2.2.1 longPromptEx
     (by rw [longPromptEx_length]; decide),
   validation_rejects_out_of_bounds.2.2.2.2.2 String idString "short" (by decide)⟩

/-! ## C6: the chunker -/

/-- Scanning a separator-free word extends the accumulator. -/
theorem wordsByAux_clean_append (p : Char → Bool) (w : List Char) :
    ∀ (rest acc : List Char), (∀ c ∈ w, p c = false) →
      wordsByAux p (w ++ rest) acc = wordsByAux p rest (w.reverse ++ acc) := by
  induction w with
  | nil => intro rest acc _; simp
  | cons c w ih =>
    intro rest acc hw
    have hc : p c = false := hw c (by simp)
    show wordsByAux p (c :: (w ++ rest)) acc = _
    rw [wordsByAux, if_neg (by simp [hc])]
    rw [ih rest (c :: acc) (fun x hx => hw x (by simp [hx]))]
    simp

/-- A separator flushes a nonempty accumulator. -/
theorem wordsByAux_flush (p : Char → Bool) (sep : Char) (rest acc : List Char)
    (hs : p sep = true) (hacc : acc ≠ []) :
    wordsByAux p (sep :: rest) acc = acc.reverse :: wordsByAux p rest [] := by
  rw [wordsByAux, if_pos (by simp [hs]), if_neg hacc]

/-- Joining nonempty separator-free words with a separator character and
re-splitting recovers exactly the original words. -/
theorem wordsBy_joinSep (p : Char → Bool) (sep : Char) (hs : p sep = true) :
    ∀ gs : List (List Char),
      (∀ g ∈ gs, g ≠ [] ∧ ∀ c ∈ g, p c = false) →
      wordsBy p (joinSep [sep] gs) = gs := by
  intro gs
  induction gs with
  | nil => intro _; rfl
  | cons g gs ih =>
    intro hgs
    obtain ⟨hg, hgc⟩ := hgs g (by simp)
    cases gs with
    | nil =>
      show wordsBy p g = [g]
      unfold wordsBy
      rw [← List.append_nil g, wordsByAux_clean_append p g [] [] hgc]
      rw [wordsByAux, if_neg (by simp [hg])]
      simp
    | cons g2 gs2 =>
      have hjoin : joinSep [sep] (g :: g2 :: gs2)
          = g ++ (sep :: joinSep [sep] (g2 :: gs2)) := by
        show g ++ [sep] ++ joinSep [sep] (g2 :: gs2) = _
        simp
      rw [hjoin]
      unfold wordsBy
      rw [wordsByAux_clean_append p g _ [] hgc]
      rw [wordsByAux_flush p sep _ _ hs (by simp [hg])]
      rw [List.append_nil, List.reverse_reverse]
      exact congrArg (g :: ·) (ih (fun x hx => hgs x (by simp [hx])))

/-- Every word produced by the splitter is nonempty and separator-free. -/
theorem wordsByAux_clean (p : Char → Bool) :
    ∀ (l acc : List Char), (∀ c ∈ acc, p c = false) →
      ∀ w ∈ wordsByAux p l acc, w ≠ [] ∧ ∀ c ∈ w, p c = false := by
  intro l
  induction l with
  | nil =>
    intro acc hacc w hw
    by_cases h : acc = []
    · simp [wordsByAux, h] at hw
    · rw [wordsByAux, if_neg h] at hw
      simp only [List.mem_singleton] at hw
      subst hw
      exact ⟨by simpa using h, fun c hc => hacc c (List.mem_reverse.mp hc)⟩
  | cons c cs ih =>
    intro acc hacc w hw
    rw [wordsByAux] at hw
    by_cases hc : p c = true
    · rw [if_pos hc] at hw
      by_cases ha : acc = []
      · rw [if_pos ha] at hw
        exact ih [] (by simp) w hw
      · rw [if_neg ha] at hw
        rcases List.mem_cons.mp hw with hw | hw
        · subst hw
          exact ⟨by simpa using ha, fun x hx => hacc x (List.mem_reverse.mp hx)⟩
        · exact ih [] (by simp) w hw
    · rw [if_neg hc] at hw
      refine ih (c :: acc) ?_ w hw
      intro x hx
      rcases List.mem_cons.mp hx with hx | hx
      · subst hx; exact Bool.eq_false_iff.mpr hc
      · exact hacc x hx

/-- Every word of `wordsOf` is nonempty and whitespace-free. -/
theorem wordsOf_clean (s : String) :
    ∀ w ∈ wordsOf s, w ≠ [] ∧ ∀ c ∈ w, isWs c = false :=
  wordsByAux_clean isWs s.data [] (by simp)

/-- Concatenating the chunk groups reproduces the word list (for positive
group size and sufficient fuel). -/
theorem chunksOfFuel_flatten (n : Nat) (hn : 0 < n) :
    ∀ (fuel : Nat) (l : List (List Char)), l.length ≤ fuel →
      (chunksOfFuel n fuel l).flatten = l := by
  intro fuel
  induction fuel with
  | zero =>
    intro l hl
    rw [List.length_eq_zero.mp (Nat.le_zero.mp hl)]
    rfl
  | succ fuel ih =>
    intro l hl
    by_cases he : l.isEmpty
    · rw [chunksOfFuel, if_pos (by simp [he])]
      rw [List.isEmpty_iff.mp he]
      rfl
    · rw [chunksOfFuel, if_neg (by simp [he]; omega)]
      rw [List.flatten_cons]
      rw [ih (l.drop n) (by rw [List.length_drop]; omega)]
      exact List.take_append_drop n l

/-- Every chunk group contains at most `n` words. -/
theorem chunksOfFuel_bounded (n : Nat) :
    ∀ (fuel : Nat) (l : List (List Char)) g, g ∈ chunksOfFuel n fuel l →
      g.length ≤ n := by
  intro fuel
  induction fuel with
  | zero => intro l g hg; simp [chunksOfFuel] at hg
  | succ fuel ih =>
    intro l g hg
    rw [chunksOfFuel] at hg
    by_cases hc : (l.isEmpty || n == 0) = true
    · rw [if_pos hc] at hg; simp at hg
    · rw [if_neg hc] at hg
      rcases List.mem_cons.mp hg with hg | hg
      · subst hg
        rw [List.length_take]
        omega
      · exact ih _ g hg

/-- Every word of every chunk group comes from the original word list. -/
theorem chunksOfFuel_subset (n : Nat) :
    ∀ (fuel : Nat) (l : List (List Char)) g, g ∈ chunksOfFuel n fuel l →
      ∀ x ∈ g, x ∈ l := by
  intro fuel
  induction fuel with
  | zero => intro l g hg; simp [chunksOfFuel] at hg
  | succ fuel ih =>
    intro l g hg x hx
    rw [chunksOfFuel] at hg
    by_cases hc : (l.isEmpty || n == 0) = true
    · rw [if_pos hc] at hg; simp at hg
    · rw [if_neg hc] at hg
      rcases List.mem_cons.mp hg with hg | hg
      · subst hg
        exact (List.take_sublist n l).subset hx
      · exact (List.drop_sublist n l).subset (ih _ g hg x hx)

/-- C6: for every text and every `maxWords > 0`, each chunk produced by
`chunk_text` contains at most `maxWords` words, and concatenating the
chunks' word sequences in order reproduces exactly the word sequence of the
original text (whitespace collapses to the single joining spaces). -/
theorem chunk_text_bounded_and_lossless (text : String) (maxWords : Nat)
    (h : 0 < maxWords) :
    (∀ chunk ∈ chunk_text text maxWords, (wordsOf chunk).length ≤ maxWords) ∧
    ((chunk_text text maxWords).map wordsOf).flatten = wordsOf text := by
  have hclean : ∀ g ∈ chunksOf maxWords (wordsOf text),
      wordsOf (String.mk (joinSep [' '] g)) = g := by
    intro g hg
    show wordsBy isWs (joinSep [' '] g) = g
    apply wordsBy_joinSep isWs ' ' (by decide)
    intro w hw
    exact wordsOf_clean text w (chunksOfFuel_subset maxWords _ _ g hg w hw)
  constructor
  · intro chunk hchunk
    rw [chunk_text, List.mem_map] at hchunk
    obtain ⟨g, hg, rfl⟩ := hchunk
    rw [hclean g hg]
    exact chunksOfFuel_bounded maxWords _ _ g hg
  · rw [chunk_text, List.map_map]
    have hmap : (chunksOf maxWords (wordsOf text)).map
        (wordsOf ∘ fun g => String.mk (joinSep [' '] g))
        = (chunksOf maxWords (wordsOf text)).map id :=
      List.map_congr_left (fun g hg => hclean g hg)
    rw [hmap, List.map_id]
    exact chunksOfFuel_flatten maxWords h _ _ (Nat.le_refl _)

/-- Witness for C6 at the text "one two three" with `maxWords = 2`. -/
theorem chunk_text_bounded_and_lossless_witness :
    (0 : Nat) < 2 ∧
    chunk_text "one two three" 2 = ["one two", "three"] ∧
    (wordsOf ((chunk_text "one two three" 2).headD "")).length ≤ 2 ∧
    ((chunk_text "one two three" 2).map wordsOf).flatten = wordsOf "one two three" :=
  ⟨by decide, by decide,
   (chunk_text_bounded_and_lossless "one two three" 2 (by decide)).1 _ (by decide),
   (chunk_text_bounded_and_lossless "one two three" 2 (by decide)).2⟩

/-! ## C4: size-limit enforcement -/

/-- When the cache is over the bound, `_enforce_size_limit` brings it to
exactly `maxSize` entries (keys are unique in a dict). -/
theorem enforce_length_of_over {α : Type} (maxSize : Nat) (c : Cache α)
    (hkeys : (c.map Prod.fst).Nodup) (hover : maxSize < c.length) :
    (enforce_size_limit maxSize c).length = maxSize := by
  unfold enforce_size_limit
  rw [if_pos hover]
  have hperm : (List.mergeSort c
      (fun a b => decide (a.2.timestamp ≤ b.2.timestamp))).Perm c :=
    List.mergeSort_perm c _
  set S := List.mergeSort c (fun a b => decide (a.2.timestamp ≤ b.2.timestamp))
  set k' := c.length - maxSize
  set doomed := (S.take k').map (fun e => e.1) with hdoomed
  set pred := fun (e : String × CacheItem α) => ! doomed.contains e.1 with hpred
  have hkeysS : (S.map Prod.fst).Nodup := ((hperm.map Prod.fst).nodup_iff).mpr hkeys
  have hlenS : S.length = c.length := hperm.length_eq
  have hflen : (List.filter pred c).length = (List.filter pred S).length :=
    ((hperm.filter pred).length_eq).symm
  have hsplit : S.take k' ++ S.drop k' = S := List.take_append_drop k' S
  have htake : List.filter pred (S.take k') = [] := by
    rw [List.filter_eq_nil_iff]
    intro e he
    simp only [hpred, Bool.not_eq_true', Bool.not_eq_false]
    have : e.1 ∈ doomed := by
      rw [hdoomed]
      exact List.mem_map.mpr ⟨e, he, rfl⟩
    simpa using this
  have hdisj : ∀ x ∈ (S.take k').map Prod.fst, x ∉ (S.drop k').map Prod.fst := by
    have : ((S.take k').map Prod.fst ++ (S.drop k').map Prod.fst).Nodup := by
      rw [← List.map_append, hsplit]
      exact hkeysS
    exact fun x hx => (List.disjoint_of_nodup_append this) hx
  have hdrop : List.filter pred (S.drop k') = S.drop k' := by
    rw [List.filter_eq_self]
    intro e he
    simp only [hpred, Bool.not_eq_true', Bool.not_eq_false]
    have hin : e.1 ∈ (S.drop k').map Prod.fst := List.mem_map.mpr ⟨e, he, rfl⟩
    have : e.1 ∉ doomed := by
      rw [hdoomed]
      intro hmem
      have : e.1 ∈ (S.take k').map (fun e => e.1) := hmem
      exact hdisj e.1 this hin
    simpa using this
  rw [hflen, ← hsplit, List.filter_append, htake, hdrop]
  simp only [List.nil_append, List.length_drop]
  have hk'' : k' = c.length - maxSize := rfl
  omega

/-- Entry-level characterization: with distinct keys and distinct creation
timestamps, an entry of an over-full cache survives `_enforce_size_limit`
exactly when at least `k` entries are strictly older (so exactly the `k`
oldest are evicted). -/
theorem enforce_mem_iff {α : Type} (maxSize k : Nat) (c : Cache α)
    (hkeys : (c.map Prod.fst).Nodup)
    (hts : (c.map (fun e => e.2.timestamp)).Nodup)
    (hlen : c.length = maxSize + k) (hk : 0 < k) :
    ∀ e ∈ c, e ∈ enforce_size_limit maxSize c ↔
      k ≤ (c.filter (fun x => decide (x.2.timestamp < e.2.timestamp))).length := by
  intro e hec
  have hover : c.length > maxSize := by omega
  unfold enforce_size_limit
  rw [if_pos hover]
  have hperm : (List.mergeSort c
      (fun a b => decide (a.2.timestamp ≤ b.2.timestamp))).Perm c :=
    List.mergeSort_perm c _
  set S := List.mergeSort c (fun a b => decide (a.2.timestamp ≤ b.2.timestamp))
    with hSdef
  have hkk : c.length - maxSize = k := by omega
  rw [hkk]
  set doomed := (S.take k).map (fun e => e.1) with hdoomed
  have hkeysS : (S.map Prod.fst).Nodup := ((hperm.map Prod.fst).nodup_iff).mpr hkeys
  have htsS : (S.map (fun e => e.2.timestamp)).Nodup :=
    ((hperm.map _).nodup_iff).mpr hts
  have hlenS : S.length = c.length := hperm.length_eq
  have hSle : S.Pairwise
      (fun a b => (decide (a.2.timestamp ≤ b.2.timestamp)) = true) := by
    rw [hSdef]
    apply List.sorted_mergeSort
    · intro a b c h1 h2
      simp only [decide_eq_true_eq] at *
      omega
    · intro a b
      simp only [Bool.or_eq_true, decide_eq_true_eq]
      omega
  have hlt : S.Pairwise (fun a b => a.2.timestamp < b.2.timestamp) := by
    have hne : S.Pairwise (fun a b => a.2.timestamp ≠ b.2.timestamp) :=
      List.pairwise_map.mp htsS
    exact (hSle.and hne).imp (by
      intro a b hab
      have h1 := hab.1
      simp only [decide_eq_true_eq] at h1
      omega)
  have hsplit : S.take k ++ S.drop k = S := List.take_append_drop k S
  have hcross : ∀ a ∈ S.take k, ∀ b ∈ S.drop k,
      a.2.timestamp < b.2.timestamp := by
    have := List.pairwise_append.mp (by rw [hsplit]; exact hlt)
    exact this.2.2
  have htlen : (S.take k).length = k := by
    rw [List.length_take]
    omega
  have hcount : (c.filter
      (fun x => decide (x.2.timestamp < e.2.timestamp))).length
      = List.countP (fun x => decide (x.2.timestamp < e.2.timestamp)) S := by
    rw [← List.countP_eq_length_filter]
    exact (hperm.countP_eq _).symm
  have heS : e ∈ S := hperm.mem_iff.mpr hec
  have hSnodup : S.Nodup := hkeysS.of_map
  have hdisjSelf : ∀ x, x ∈ S.take k → x ∈ S.drop k → False := by
    have := List.disjoint_of_nodup_append (by rw [hsplit]; exact hSnodup)
    exact fun x hx hy => this hx hy
  have hcountsplit : List.countP
      (fun x => decide (x.2.timestamp < e.2.timestamp)) S
      = List.countP (fun x => decide (x.2.timestamp < e.2.timestamp)) (S.take k)
      + List.countP (fun x => decide (x.2.timestamp < e.2.timestamp)) (S.drop k) := by
    rw [← hsplit, List.countP_append]
    rw [hsplit]
  rcases List.mem_append.mp (by rw [hsplit]; exact heS) with het | hed
  · -- e is among the k oldest: it is evicted and fewer than k entries are older
    have hkey : e.1 ∈ doomed := by
      rw [hdoomed]
      exact List.mem_map.mpr ⟨e, het, rfl⟩
    have hnotmem : e ∉ List.filter (fun x => ! doomed.contains x.1) c := by
      intro hmem
      have h2 := (List.mem_filter.mp hmem).2
      simp only [Bool.not_eq_true'] at h2
      have : e.1 ∉ doomed := by simpa using h2
      exact this hkey
    have hdzero : List.countP
        (fun x => decide (x.2.timestamp < e.2.timestamp)) (S.drop k) = 0 := by
      rw [List.countP_eq_zero]
      intro x hx
      simp only [decide_eq_true_eq, not_lt]
      exact Nat.le_of_lt (hcross e het x hx)
    have htlt : List.countP
        (fun x => decide (x.2.timestamp < e.2.timestamp)) (S.take k) < k := by
      have hle := List.countP_le_length
        (fun x => decide (x.2.timestamp < e.2.timestamp)) (l := S.take k)
      rw [htlen] at hle
      rcases Nat.lt_or_ge (List.countP
        (fun x => decide (x.2.timestamp < e.2.timestamp)) (S.take k)) k with h | h
      · exact h
      · exfalso
        have heq : List.countP
            (fun x => decide (x.2.timestamp < e.2.timestamp)) (S.take k)
            = (S.take k).length := by omega
        have := List.countP_eq_length.mp heq e het
        simp at this
    constructor
    · intro hmem
      exact absurd hmem hnotmem
    · intro hge
      rw [hcount, hcountsplit] at hge
      omega
  · -- e is not among the k oldest: it survives and at least k entries are older
    have hkeynot : e.1 ∉ doomed := by
      rw [hdoomed]
      intro hmem
      obtain ⟨x, hx, hxe⟩ := List.mem_map.mp hmem
      have hxS : x ∈ S := by
        rw [← hsplit]
        exact List.mem_append.mpr (Or.inl hx)
      have hxeq : x = e := List.inj_on_of_nodup_map hkeysS hxS heS hxe
      rw [hxeq] at hx
      exact hdisjSelf e hx hed
    have hmem : e ∈ List.filter (fun x => ! doomed.contains x.1) c := by
      rw [List.mem_filter]
      refine ⟨hec, ?_⟩
      simp only [Bool.not_eq_true']
      simpa using hkeynot
    have htfull : List.countP
        (fun x => decide (x.2.timestamp < e.2.timestamp)) (S.take k) = k := by
      have hall : List.countP
          (fun x => decide (x.2.timestamp < e.2.timestamp)) (S.take k)
          = (S.take k).length :=
        List.countP_eq_length.mpr (fun x hx => by
          simp only [decide_eq_true_eq]
          exact hcross x hx e hed)
      rw [hall, htlen]
    constructor
    · intro _
      rw [hcount, hcountsplit, htfull]
      omega
    · intro _
      exact hmem

/-- C4: with unique keys and distinct creation timestamps, a cache that has
grown to `maxSize + k` entries (`k > 0`) is trimmed by
`_enforce_size_limit` to exactly `maxSize` entries, the survivors being
exactly the entries with at least `k` strictly-older entries (so the `k`
oldest-by-timestamp entries are evicted); and after any enforcement (hence
after every insertion, which runs it) the cache holds at most `maxSize`
entries. -/
theorem enforce_size_limit_evicts_oldest {α : Type} (maxSize k : Nat)
    (c : Cache α)
    (hkeys : (c.map Prod.fst).Nodup)
    (hts : (c.map (fun e => e.2.timestamp)).Nodup)
    (hlen : c.length = maxSize + k) (hk : 0 < k) :
    (enforce_size_limit maxSize c).length = maxSize ∧
    (∀ e ∈ c, e ∈ enforce_size_limit maxSize c ↔
      k ≤ (c.filter (fun x => decide (x.2.timestamp < e.2.timestamp))).length) ∧
    (∀ c2 : Cache α, (c2.map Prod.fst).Nodup →
      (enforce_size_limit maxSize c2).length ≤ maxSize) := by
  refine ⟨enforce_length_of_over maxSize c hkeys (by omega),
    enforce_mem_iff maxSize k c hkeys hts hlen hk, ?_⟩
  intro c2 hkeys2
  by_cases hover : maxSize < c2.length
  · rw [enforce_length_of_over maxSize c2 hkeys2 hover]
  · unfold enforce_size_limit
    rw [if_neg hover]
    omega

/-- Witness for C4: with `maxSize = 2` and `k = 1`, the oldest entry `"a"`
is evicted, leaving exactly 2 entries. -/
theorem enforce_size_limit_evicts_oldest_witness :
    (cacheOverEx.map Prod.fst).Nodup ∧
    cacheOverEx.length = 2 + 1 ∧
    (enforce_size_limit 2 cacheOverEx).length = 2 ∧
    ("a", (⟨"x", 0, 100⟩ : CacheItem String)) ∉ enforce_size_limit 2 cacheOverEx := by
  refine ⟨by decide, by decide,
    (enforce_size_limit_evicts_oldest 2 1 cacheOverEx (by decide) (by decide)
      (by decide) (by decide)).1, ?_⟩
  intro hmem
  have := ((enforce_size_limit_evicts_oldest 2 1 cacheOverEx (by decide) (by decide)
      (by decide) (by decide)).2.1 ("a", ⟨"x", 0, 100⟩) (by decide)).mp hmem
  revert this
  decide

/-! ## C1, C3: the bare `@cache_result` decoration -/

/-- C1 (evaluating the code at the failing input): calling the module-level
`summarize_text` — which the bare `@cache_result` left bound to `decorator`
— returns a freshly built wrapper function object, leaves the cache and the
model-call count untouched, and in particular does not return any string;
so two calls within the TTL never consult the cache and never return the
computed summary. -/
theorem summarize_text_call_is_function_object :
    ∀ (input : String) (env : PyEnv),
      pyCall1 summarize_text_module (PyVal.pystr input) env
        = some (PyVal.wrapperClosure (PyVal.funcObj FuncId.summarize)
            (PyVal.pystr input), env) ∧
      (∀ s : String,
        PyVal.wrapperClosure (PyVal.funcObj FuncId.summarize) (PyVal.pystr input)
          ≠ PyVal.pystr s) := by
  intro input env
  exact ⟨rfl, fun s h => PyVal.noConfusion h⟩

/-- C3 (evaluating the code at the failing input): each of the four
decorated transform operations, called with one argument, performs zero
model calls and returns a wrapper function object — not a result string and
not a warning string; called with two arguments (ExtendCustom, Translate at
their call sites) it raises `TypeError`. -/
theorem transform_ops_return_function_objects :
    (∀ (id : FuncId) (input : String) (env : PyEnv),
      pyCall1 (module_binding id) (PyVal.pystr input) env
        = some (PyVal.wrapperClosure (PyVal.funcObj id) (PyVal.pystr input), env) ∧
      (∀ s : String,
        PyVal.wrapperClosure (PyVal.funcObj id) (PyVal.pystr input)
          ≠ PyVal.pystr s)) ∧
    (∀ (id : FuncId) (a b : PyVal) (env : PyEnv),
      pyCall2 (module_binding id) a b env = none) := by
  constructor
  · intro id input env
    refine ⟨?_, fun s h => PyVal.noConfusion h⟩
    cases id <;> rfl
  · intro id a b env
    rfl

/-! ## C2: temporary-directory cleanup on the MediaURL path -/

/-- C2 (evaluating the code at the failing input): when the direct download
answers HTTP 404, `transcribe_media_url` returns the download warning while
the temporary directory created by `mkdtemp` is still present on the
filesystem (the cleanup `finally` surrounds only the transcription step,
and the `_temp_dirs` tracking set was never populated).  In contrast, on a
successful download the `finally` removes the directory and everything
under it. -/
theorem transcribe_media_url_leaks_on_download_error :
    transcribe_media_url (DownloadOutcome.httpErr 404) (SttOutcome.invalid "u") fs0
      = ("⚠️ Could not download media file, HTTP 404", ⟨["tmp0"], 1, []⟩) ∧
    pathExists "tmp0"
      (transcribe_media_url (DownloadOutcome.httpErr 404)
        (SttOutcome.invalid "u") fs0).2 = true ∧
    (transcribe_media_url (DownloadOutcome.httpErr 404)
      (SttOutcome.invalid "u") fs0).2.tempDirsSet = [] ∧
    (transcribe_media_url (DownloadOutcome.httpOk ".mp3")
      (SttOutcome.transcribed "hello") fs0).2.live = [] := by
  refine ⟨?_, ?_, ?_, ?_⟩ <;> decide

/-! ## C7: sentinel pass-through between pipeline stages -/

/-- C7 counterexample: at the concrete warning-marked input
"⚠️ Summarization failed." the Extend stage does not return its input
unchanged: the decorated `extend_summary` returns a wrapper function
object, and its undecorated body embeds the warning into the model prompt
and returns the model's response instead. -/
theorem extend_stage_not_passthrough :
    isWarning warnInputEx = true ∧
    pyCall1 extend_summary_module (PyVal.pystr warnInputEx) env0
      = some (PyVal.wrapperClosure (PyVal.funcObj FuncId.extend)
          (PyVal.pystr warnInputEx), env0) ∧
    PyVal.wrapperClosure (PyVal.funcObj FuncId.extend) (PyVal.pystr warnInputEx)
      ≠ PyVal.pystr warnInputEx ∧
    extend_summary_body genConst warnInputEx = "Expanded details." ∧
    extend_summary_body genConst warnInputEx ≠ warnInputEx := by
  refine ⟨by decide, rfl, by decide, by decide, by decide⟩

/-- C7 amended: only the acquisition-to-summarize boundary checks the
sentinel — `summarize_file` returns a warning-marked extractor result
unchanged (independently of the model oracle, i.e. without model calls) —
while the Extend/ExtendCustom/Translate stages perform no sentinel check:
as decorated they return a function object for every input, and their
undecorated bodies embed the input into the model prompt and return the
stripped model response rather than the input. -/
theorem sentinel_passthrough_only_at_acquisition :
    (∀ (extract : String → String) (gen : String → Option String) (path : String),
      isWarning (extract path) = true →
      summarize_file_flow extract gen path = extract path) ∧
    (∀ (id : FuncId) (input : String) (env : PyEnv),
      pyCall1 (module_binding id) (PyVal.pystr input) env
        = some (PyVal.wrapperClosure (PyVal.funcObj id) (PyVal.pystr input), env)) ∧
    (∀ (gen : String → GenResult) (w t : String),
      gen ("Expand the following summary into more details:\n\n" ++ w)
        = GenResult.response t → t ≠ "" →
      extend_summary_body gen w = pyStrip t) := by
  refine ⟨?_, ?_, ?_⟩
  · intro extract gen path h
    unfold summarize_file_flow
    rw [if_pos h]
  · intro id input env
    cases id <;> rfl
  · intro gen w t hgen ht
    unfold extend_summary_body
    rw [hgen]
    simp only []
    rw [if_neg ht]

/-- Witness for the amended C7 at concrete inputs. -/
theorem sentinel_passthrough_only_at_acquisition_witness :
    isWarning (extractWarnEx "file.xyz") = true ∧
    summarize_file_flow extractWarnEx genNoneEx "file.xyz"
      = extractWarnEx "file.xyz" ∧
    genConst ("Expand the following summary into more details:\n\n" ++ warnInputEx)
      = GenResult.response "Expanded details." ∧
    extend_summary_body genConst warnInputEx = pyStrip "Expanded details." :=
  ⟨by decide,
   sentinel_passthrough_only_at_acquisition.1 extractWarnEx genNoneEx "file.xyz"
     (by decide),
   rfl,
   sentinel_passthrough_only_at_acquisition.2.2 genConst warnInputEx
     "Expanded details." rfl (by decide)⟩

end SUME
